import Mathlib

/-!
Verification of the command-interpretation core of the SilentCommander
program (src/silent_commander.py).

Strings are modelled as lists of Unicode codepoints (List Nat); a Lean
string literal is converted with ofString.  The model covers the ASCII
fragment of Python's text predicates (str.lower, the regex word class);
every string the program itself manipulates is ASCII.

External OS actions (webbrowser.open_new_tab, os.startfile,
subprocess.run) are modelled by an oracle that either succeeds or
raises; the functions return the list of external calls made, inside
Except so that an uncaught exception is observable.  The two
try/except blocks of the source (_open_browser, _open_system_settings)
are the only places an error is turned back into a normal result.
-/

namespace SilentCommander

/-- Convert a Lean string literal to its list of codepoints. -/
def ofString (s : String) : List Nat := s.data.map Char.toNat

/-- Python str.lower for the ASCII range: maps codes 65..90 (A..Z) to
97..122 (a..z) and leaves everything else unchanged. -/
def lowerN (n : Nat) : Nat := if 65 ≤ n ∧ n ≤ 90 then n + 32 else n

/-- Whitespace as recognised by Python's str.strip and the whitespace
regex class (Unicode whitespace codepoints). -/
def isSpN (n : Nat) : Bool :=
  decide (n = 32 ∨ (9 ≤ n ∧ n ≤ 13) ∨ (28 ≤ n ∧ n ≤ 31) ∨ n = 133 ∨ n = 160 ∨
    n = 5760 ∨ (8192 ≤ n ∧ n ≤ 8202) ∨ n = 8232 ∨ n = 8233 ∨ n = 8239 ∨
    n = 8287 ∨ n = 12288)

/-- Word characters of the regex word class (ASCII fragment):
digits, letters and underscore. -/
def isWordN (n : Nat) : Bool :=
  decide ((48 ≤ n ∧ n ≤ 57) ∨ (65 ≤ n ∧ n ≤ 90) ∨ (97 ≤ n ∧ n ≤ 122) ∨ n = 95)

/-- List-of-codepoints version of Python str.startswith. -/
def startsWithL : List Nat → List Nat → Bool
  | _, [] => true
  | [], _ :: _ => false
  | a :: as, b :: bs => a == b && startsWithL as bs

/-- Python substring containment: sub appears contiguously in hay
(models the Python expression sub in hay). -/
def containsSub (hay sub : List Nat) : Bool :=
  startsWithL hay sub ||
    match hay with
    | [] => false
    | _ :: t => containsSub t sub

/-- Python str.strip: drop leading and trailing whitespace. -/
def pyStrip (cs : List Nat) : List Nat :=
  (((cs.dropWhile isSpN).reverse).dropWhile isSpN).reverse

/-- True when the list is empty or its head is not a word character:
the word-boundary test after a connective in the split regex. -/
def notWordHead : List Nat → Bool
  | [] => true
  | c :: _ => !isWordN c

/-- A case-insensitive whole-word occurrence of the connective word
and starts at the head of cs; prevW says whether the character just
before cs is a word character (so !prevW is the leading word
boundary). -/
def isAndAt (prevW : Bool) (cs : List Nat) : Bool :=
  !prevW && (cs.take 3).map lowerN == ofString "and" && notWordHead (cs.drop 3)

/-- Same as isAndAt for the connective word then. -/
def isThenAt (prevW : Bool) (cs : List Nat) : Bool :=
  !prevW && (cs.take 4).map lowerN == ofString "then" && notWordHead (cs.drop 4)

/-- Left-to-right scan of re.split on the whole-word case-insensitive
connective pattern (the words and / then), keeping the fragments
between matches.  The scanner consumes one character per step: skip
counts characters of an already-matched connective still to consume,
prevW is the word-boundary state (the previous character was a word
character) and acc holds the reversed current fragment. -/
def splitConnAux (skip : Nat) (prevW : Bool) (acc : List Nat) :
    List Nat → List (List Nat)
  | [] => [acc.reverse]
  | c :: rest =>
    match skip with
    | k + 1 => splitConnAux k prevW acc rest
    | 0 =>
      if isAndAt prevW (c :: rest) then
        acc.reverse :: splitConnAux 2 true [] rest
      else if isThenAt prevW (c :: rest) then
        acc.reverse :: splitConnAux 3 true [] rest
      else
        splitConnAux 0 (isWordN c) (c :: acc) rest

/-- re.split of the case-insensitive whole-word connective pattern on a
transcription, as used by SilentCommander.execute. -/
def splitConnectives (cs : List Nat) : List (List Nat) :=
  splitConnAux 0 false [] cs

/-- True when the list starts with a whitespace character. -/
def headIsSp : List Nat → Bool
  | [] => false
  | c :: _ => isSpN c

/-- Remove the leftmost anchored match of the query-verb pattern of
_handle_search: an anchored search or find, an optional group of
whitespace plus the word for, then mandatory whitespace (with the
backtracking the regex engine performs when the trailing whitespace is
missing).  When nothing matches, the command is returned unchanged. -/
def stripSearchLead (cs : List Nat) : List Nat :=
  let afterVerb : Option (List Nat) :=
    if startsWithL cs (ofString "search") then some (cs.drop 6)
    else if startsWithL cs (ofString "find") then some (cs.drop 4)
    else none
  match afterVerb with
  | none => cs
  | some rest =>
    if headIsSp rest then
      let r1 := rest.dropWhile isSpN
      if startsWithL r1 (ofString "for") then
        let r2 := r1.drop 3
        if headIsSp r2 then r2.dropWhile isSpN else r1
      else r1
    else cs

/-- Remove the leftmost anchored match of the open-verb pattern of
_handle_open: the word open followed by mandatory whitespace.  When
nothing matches, the command is returned unchanged. -/
def stripOpenLead (cs : List Nat) : List Nat :=
  if startsWithL cs (ofString "open") && headIsSp (cs.drop 4) then
    (cs.drop 4).dropWhile isSpN
  else cs

/-- UTF-8 encoding of one codepoint. -/
def utf8Bytes (n : Nat) : List Nat :=
  if n < 128 then [n]
  else if n < 2048 then [192 + n / 64, 128 + n % 64]
  else if n < 65536 then [224 + n / 4096, 128 + (n / 64) % 64, 128 + n % 64]
  else [240 + n / 262144, 128 + (n / 4096) % 64, 128 + (n / 64) % 64,
    128 + n % 64]

/-- Bytes urllib.parse.quote leaves unescaped with the default safe
set: ASCII letters and digits, underscore, dot, hyphen, tilde and the
slash. -/
def quoteSafe (b : Nat) : Bool :=
  decide ((65 ≤ b ∧ b ≤ 90) ∨ (97 ≤ b ∧ b ≤ 122) ∨ (48 ≤ b ∧ b ≤ 57) ∨
    b = 95 ∨ b = 46 ∨ b = 45 ∨ b = 126 ∨ b = 47)

/-- Uppercase hexadecimal digit for a value below 16. -/
def hexDig (n : Nat) : Nat := if n < 10 then 48 + n else 55 + n

/-- Percent-encode one byte as urllib.parse.quote does. -/
def quoteByte (b : Nat) : List Nat :=
  if quoteSafe b then [b] else [37, hexDig (b / 16), hexDig (b % 16)]

/-- urllib.parse.quote with default arguments on a string of
codepoints. -/
def pyQuote (cs : List Nat) : List Nat :=
  ((cs.map utf8Bytes).flatten.map quoteByte).flatten

/-- The site_whitelist dictionary from SilentCommander.__init__, in
insertion order (which is iteration order in Python). -/
def siteWhitelist : List (List Nat × List Nat) :=
  [(ofString "youtube", ofString "https://www.youtube.com"),
   (ofString "gmail", ofString "https://mail.google.com"),
   (ofString "google", ofString "https://www.google.com"),
   (ofString "reddit", ofString "https://www.reddit.com"),
   (ofString "github", ofString "https://github.com"),
   (ofString "amazon", ofString "https://www.amazon.com"),
   (ofString "netflix", ofString "https://www.netflix.com"),
   (ofString "twitter", ofString "https://twitter.com"),
   (ofString "x", ofString "https://x.com"),
   (ofString "facebook", ofString "https://www.facebook.com"),
   (ofString "linkedin", ofString "https://www.linkedin.com"),
   (ofString "wikipedia", ofString "https://www.wikipedia.org"),
   (ofString "weather", ofString "https://weather.com"),
   (ofString "news", ofString "https://news.google.com")]

/-- Python any(w in target for w in ws). -/
def anyIn (ws : List (List Nat)) (target : List Nat) : Bool :=
  ws.any (fun w => containsSub target w)

/-- The Windows ms-settings URI chosen by _win_settings for a target
string. -/
def winSettingsUri (target : List Nat) : List Nat :=
  if anyIn [ofString "sound", ofString "audio", ofString "volume"] target then
    ofString "ms-settings:sound"
  else if anyIn [ofString "display", ofString "screen", ofString "monitor"]
      target then
    ofString "ms-settings:display"
  else if anyIn [ofString "privacy", ofString "security"] target then
    ofString "ms-settings:privacy"
  else if anyIn [ofString "bluetooth", ofString "device"] target then
    ofString "ms-settings:bluetooth"
  else if anyIn [ofString "wifi", ofString "network", ofString "internet"]
      target then
    ofString "ms-settings:network"
  else if anyIn [ofString "power", ofString "battery", ofString "sleep"]
      target then
    ofString "ms-settings:powersleep"
  else ofString "ms-settings:"

/-- The macOS preference-pane URI built by _mac_settings. -/
def macSettingsUri (target : List Nat) : List Nat :=
  ofString "x-apple.systempreferences:" ++
    (if anyIn [ofString "sound", ofString "audio", ofString "volume"] target
     then ofString "com.apple.preference.sound"
     else if anyIn [ofString "display", ofString "screen", ofString "monitor"]
        target then ofString "com.apple.preference.displays"
     else if anyIn [ofString "privacy", ofString "security"] target then
       ofString "com.apple.preference.security?Privacy"
     else if anyIn [ofString "network", ofString "wifi", ofString "internet"]
        target then ofString "com.apple.preference.network"
     else if anyIn [ofString "update"] target then
       ofString "com.apple.preferences.softwareupdate"
     else [])

/-- The gnome-control-center invocation built by _linux_settings. -/
def linuxSettingsCmd (target : List Nat) : List (List Nat) :=
  ofString "gnome-control-center" ::
    (if anyIn [ofString "sound", ofString "audio", ofString "volume"] target
     then [ofString "sound"]
     else if anyIn [ofString "display", ofString "screen", ofString "monitor"]
        target then [ofString "display"]
     else if anyIn [ofString "network", ofString "wifi"] target then
       [ofString "network"]
     else if anyIn [ofString "bluetooth"] target then [ofString "bluetooth"]
     else if anyIn [ofString "power"] target then [ofString "power"]
     else [])

/-- An external OS action the program can attempt: a browser tab via
webbrowser.open_new_tab, a URI launch via os.startfile, or a process
via subprocess.run. -/
inductive ExtCall
  | browser (url : List Nat)
  | startfile (uri : List Nat)
  | runProc (args : List (List Nat))
deriving DecidableEq

/-- The environment decides, per attempted external call, whether the
underlying OS primitive returns or raises (the error value is the
exception). -/
def Oracle : Type := ExtCall → Except (List Nat) Unit

/-- The oracle on which every external action succeeds. -/
def okOracle : Oracle := fun _ => Except.ok ()

/-- _open_browser: try webbrowser.open_new_tab(url), swallowing any
exception.  The attempted call is recorded when it succeeds. -/
def open_browser (o : Oracle) (url : List Nat) :
    Except (List Nat) (List ExtCall) :=
  match o (ExtCall.browser url) with
  | Except.ok _ => Except.ok [ExtCall.browser url]
  | Except.error _ => Except.ok []

/-- _win_settings: resolve the URI, then os.startfile when available,
otherwise subprocess.run with a shell start command.  Exceptions
propagate to the caller. -/
def win_settings (o : Oracle) (hasStartfile : Bool) (target : List Nat) :
    Except (List Nat) (List ExtCall) :=
  let uri := winSettingsUri target
  if hasStartfile then
    (o (ExtCall.startfile uri)).map (fun _ => [ExtCall.startfile uri])
  else
    (o (ExtCall.runProc [ofString "start", uri])).map
      (fun _ => [ExtCall.runProc [ofString "start", uri]])

/-- _mac_settings: subprocess.run of the open command on the resolved
preference URI.  Exceptions propagate to the caller. -/
def mac_settings (o : Oracle) (target : List Nat) :
    Except (List Nat) (List ExtCall) :=
  (o (ExtCall.runProc [ofString "open", macSettingsUri target])).map
    (fun _ => [ExtCall.runProc [ofString "open", macSettingsUri target]])

/-- _linux_settings: subprocess.run of gnome-control-center with an
optional pane argument.  A missing binary raises, and the exception
propagates to the caller. -/
def linux_settings (o : Oracle) (target : List Nat) :
    Except (List Nat) (List ExtCall) :=
  (o (ExtCall.runProc (linuxSettingsCmd target))).map
    (fun _ => [ExtCall.runProc (linuxSettingsCmd target)])

/-- _open_system_settings: pick the per-OS resolver by substring tests
on the lowered platform name; any exception the resolver raises is
swallowed by the surrounding try/except. -/
def open_system_settings (o : Oracle) (osType : List Nat)
    (hasStartfile : Bool) (target : List Nat) :
    Except (List Nat) (List ExtCall) :=
  match
    (if containsSub osType (ofString "windows") then
      win_settings o hasStartfile target
    else if containsSub osType (ofString "darwin") then
      mac_settings o target
    else if containsSub osType (ofString "linux") then
      linux_settings o target
    else Except.ok []) with
  | Except.ok tr => Except.ok tr
  | Except.error _ => Except.ok []

/-- _handle_search: strip the verb pattern, then open the Google
search URL only when the remaining query is non-empty. -/
def handle_search (o : Oracle) (command : List Nat) :
    Except (List Nat) (List ExtCall) :=
  let query := pyStrip (stripSearchLead command)
  if query.isEmpty then Except.ok []
  else
    open_browser o
      (ofString "https://www.google.com/search?q=" ++ pyQuote query)

/-- The whitelist loop of _handle_open: first entry whose name occurs
in the target wins; no entry means no action. -/
def scanSites (o : Oracle) :
    List (List Nat × List Nat) → List Nat → Except (List Nat) (List ExtCall)
  | [], _ => Except.ok []
  | (key, url) :: rest, target =>
    if containsSub target key then open_browser o url
    else scanSites o rest target

/-- _handle_open: strip the verb, route to system settings when the
target mentions settings or the control panel, otherwise scan the site
whitelist. -/
def handle_open (o : Oracle) (osType : List Nat) (hasStartfile : Bool)
    (command : List Nat) : Except (List Nat) (List ExtCall) :=
  let target := pyStrip (stripOpenLead command)
  if containsSub target (ofString "setting") ||
      containsSub target (ofString "control panel") then
    open_system_settings o osType hasStartfile target
  else
    scanSites o siteWhitelist target

/-- _dispatch: route one normalized segment by its leading verb;
anything else is silently ignored. -/
def dispatch (o : Oracle) (osType : List Nat) (hasStartfile : Bool)
    (command : List Nat) : Except (List Nat) (List ExtCall) :=
  if startsWithL command (ofString "search") ||
      startsWithL command (ofString "find") then
    handle_search o command
  else if startsWithL command (ofString "open") then
    handle_open o osType hasStartfile command
  else Except.ok []

/-- The per-fragment loop of execute: strip and lower each fragment,
skip empty ones, dispatch the rest in order, concatenating the
external calls. -/
def execSegs (o : Oracle) (osType : List Nat) (hasStartfile : Bool) :
    List (List Nat) → Except (List Nat) (List ExtCall)
  | [] => Except.ok []
  | part :: rest =>
    let clean_cmd := (pyStrip part).map lowerN
    if clean_cmd.isEmpty then execSegs o osType hasStartfile rest
    else do
      let tr ← dispatch o osType hasStartfile clean_cmd
      let trs ← execSegs o osType hasStartfile rest
      pure (tr ++ trs)

/-- SilentCommander.execute: return at once on an empty transcription,
otherwise split on connectives and process the fragments in order.
osType is the lowered platform name computed in __init__ and
hasStartfile tells whether the os module has a startfile attribute. -/
def execute (o : Oracle) (osType : List Nat) (hasStartfile : Bool)
    (t : List Nat) : Except (List Nat) (List ExtCall) :=
  if t.isEmpty then Except.ok []
  else execSegs o osType hasStartfile (splitConnectives t)

/-- The sequence of non-empty normalized segments execute dispatches,
in order: fragments of the connective split, stripped and lowered,
with empty ones dropped. -/
def segments (t : List Nat) : List (List Nat) :=
  if t.isEmpty then []
  else
    ((splitConnectives t).map (fun p => (pyStrip p).map lowerN)).filter
      (fun s => !s.isEmpty)

/-! ### Character-level lemmas -/

theorem lowerN_idem (n : Nat) : lowerN (lowerN n) = lowerN n := by
  unfold lowerN
  by_cases h : 65 ≤ n ∧ n ≤ 90
  · simp only [if_pos h]
    rw [if_neg (by omega)]
  · simp only [if_neg h]

theorem isWordN_lowerN (n : Nat) : isWordN (lowerN n) = isWordN n := by
  unfold lowerN isWordN
  by_cases h : 65 ≤ n ∧ n ≤ 90
  · rw [if_pos h, decide_eq_decide]
    omega
  · rw [if_neg h]

theorem isSpN_lowerN (n : Nat) : isSpN (lowerN n) = isSpN n := by
  unfold lowerN isSpN
  by_cases h : 65 ≤ n ∧ n ≤ 90
  · rw [if_pos h, decide_eq_decide]
    omega
  · rw [if_neg h]

/-! ### Lowering commutes with the splitter and with stripping -/

theorem mapLower_idem (l : List Nat) :
    (l.map lowerN).map lowerN = l.map lowerN := by
  induction l with
  | nil => rfl
  | cons c rest ih => simp [lowerN_idem, ih]

theorem take_map_lower (n : Nat) (l : List Nat) :
    (l.map lowerN).take n = (l.take n).map lowerN := by
  induction l generalizing n with
  | nil => simp
  | cons c rest ih =>
    cases n with
    | zero => rfl
    | succ m =>
      rw [List.map_cons, List.take_succ_cons, List.take_succ_cons,
        List.map_cons, ih]

theorem drop_map_lower (n : Nat) (l : List Nat) :
    (l.map lowerN).drop n = (l.drop n).map lowerN := by
  induction l generalizing n with
  | nil => simp
  | cons c rest ih =>
    cases n with
    | zero => rfl
    | succ m => rw [List.map_cons, List.drop_succ_cons, List.drop_succ_cons, ih]

theorem notWordHead_map (l : List Nat) :
    notWordHead (l.map lowerN) = notWordHead l := by
  cases l with
  | nil => rfl
  | cons c rest => simp [notWordHead, isWordN_lowerN]

theorem isAndAt_map (prevW : Bool) (cs : List Nat) :
    isAndAt prevW (cs.map lowerN) = isAndAt prevW cs := by
  unfold isAndAt
  rw [take_map_lower, drop_map_lower, mapLower_idem, notWordHead_map]

theorem isThenAt_map (prevW : Bool) (cs : List Nat) :
    isThenAt prevW (cs.map lowerN) = isThenAt prevW cs := by
  unfold isThenAt
  rw [take_map_lower, drop_map_lower, mapLower_idem, notWordHead_map]

theorem reverse_map_lower (l : List Nat) :
    (l.map lowerN).reverse = l.reverse.map lowerN := by
  induction l with
  | nil => rfl
  | cons c rest ih => simp

theorem splitConnAux_nil (skip : Nat) (prevW : Bool) (acc : List Nat) :
    splitConnAux skip prevW acc [] = [acc.reverse] := rfl

theorem splitConnAux_succ (k : Nat) (prevW : Bool) (acc : List Nat)
    (c : Nat) (rest : List Nat) :
    splitConnAux (k + 1) prevW acc (c :: rest) =
      splitConnAux k prevW acc rest := rfl

theorem splitConnAux_zero (prevW : Bool) (acc : List Nat) (c : Nat)
    (rest : List Nat) :
    splitConnAux 0 prevW acc (c :: rest) =
      if isAndAt prevW (c :: rest) then
        acc.reverse :: splitConnAux 2 true [] rest
      else if isThenAt prevW (c :: rest) then
        acc.reverse :: splitConnAux 3 true [] rest
      else splitConnAux 0 (isWordN c) (c :: acc) rest := rfl

theorem splitConnAux_map_lower (cs : List Nat) :
    ∀ (skip : Nat) (prevW : Bool) (acc : List Nat),
      splitConnAux skip prevW (acc.map lowerN) (cs.map lowerN) =
        (splitConnAux skip prevW acc cs).map (List.map lowerN) := by
  induction cs with
  | nil =>
    intro skip prevW acc
    rw [List.map_nil, splitConnAux_nil, splitConnAux_nil, reverse_map_lower]
    rfl
  | cons c rest ih =>
    intro skip prevW acc
    have hA := isAndAt_map prevW (c :: rest)
    have hT := isThenAt_map prevW (c :: rest)
    simp only [List.map_cons] at hA hT
    simp only [List.map_cons]
    cases skip with
    | succ k => rw [splitConnAux_succ, splitConnAux_succ, ih]
    | zero =>
      rw [splitConnAux_zero, splitConnAux_zero, hA, hT]
      by_cases h1 : isAndAt prevW (c :: rest)
      · have h2 := ih 2 true []
        rw [List.map_nil] at h2
        rw [if_pos h1, if_pos h1, reverse_map_lower, h2, List.map_cons]
      · by_cases h2 : isThenAt prevW (c :: rest)
        · have h3 := ih 3 true []
          rw [List.map_nil] at h3
          rw [if_neg h1, if_neg h1, if_pos h2, if_pos h2, reverse_map_lower,
            h3, List.map_cons]
        · have h3 := ih 0 (isWordN c) (c :: acc)
          rw [List.map_cons] at h3
          rw [if_neg h1, if_neg h1, if_neg h2, if_neg h2, isWordN_lowerN, h3]

theorem splitConnectives_map_lower (t : List Nat) :
    splitConnectives (t.map lowerN) =
      (splitConnectives t).map (List.map lowerN) :=
  splitConnAux_map_lower t 0 false []

theorem dropWhile_sp_map_lower (l : List Nat) :
    (l.map lowerN).dropWhile isSpN = (l.dropWhile isSpN).map lowerN := by
  induction l with
  | nil => rfl
  | cons c rest ih =>
    rw [List.map_cons, List.dropWhile_cons, List.dropWhile_cons, isSpN_lowerN]
    by_cases h : isSpN c
    · rw [if_pos h, if_pos h, ih]
    · rw [if_neg h, if_neg h, List.map_cons]

theorem pyStrip_map_lower (l : List Nat) :
    pyStrip (l.map lowerN) = (pyStrip l).map lowerN := by
  unfold pyStrip
  rw [dropWhile_sp_map_lower, reverse_map_lower, dropWhile_sp_map_lower,
    reverse_map_lower]

/-! ### No exception escapes the try/except boundaries -/

theorem open_browser_ok (o : Oracle) (url : List Nat) :
    ∃ tr, open_browser o url = Except.ok tr := by
  unfold open_browser
  cases h : o (ExtCall.browser url) with
  | ok u => exact ⟨_, rfl⟩
  | error e => exact ⟨_, rfl⟩

theorem open_system_settings_ok (o : Oracle) (osType : List Nat)
    (hasStartfile : Bool) (target : List Nat) :
    ∃ tr, open_system_settings o osType hasStartfile target = Except.ok tr := by
  unfold open_system_settings
  split
  · exact ⟨_, rfl⟩
  · exact ⟨_, rfl⟩

theorem scanSites_ok (o : Oracle) (l : List (List Nat × List Nat))
    (target : List Nat) : ∃ tr, scanSites o l target = Except.ok tr := by
  induction l with
  | nil => exact ⟨[], rfl⟩
  | cons kv rest ih =>
    obtain ⟨k, u⟩ := kv
    by_cases h : containsSub target k
    · simpa [scanSites, h] using open_browser_ok o u
    · simpa [scanSites, h] using ih

theorem handle_search_ok (o : Oracle) (command : List Nat) :
    ∃ tr, handle_search o command = Except.ok tr := by
  simp only [handle_search]
  split
  · exact ⟨[], rfl⟩
  · exact open_browser_ok o _

theorem handle_open_ok (o : Oracle) (osType : List Nat) (hasStartfile : Bool)
    (command : List Nat) :
    ∃ tr, handle_open o osType hasStartfile command = Except.ok tr := by
  simp only [handle_open]
  split
  · exact open_system_settings_ok o osType hasStartfile _
  · exact scanSites_ok o siteWhitelist _

theorem dispatch_ok (o : Oracle) (osType : List Nat) (hasStartfile : Bool)
    (command : List Nat) :
    ∃ tr, dispatch o osType hasStartfile command = Except.ok tr := by
  unfold dispatch
  split
  · exact handle_search_ok o command
  · split
    · exact handle_open_ok o osType hasStartfile command
    · exact ⟨[], rfl⟩

theorem execSegs_ok (o : Oracle) (osType : List Nat) (hasStartfile : Bool)
    (parts : List (List Nat)) :
    ∃ tr, execSegs o osType hasStartfile parts = Except.ok tr := by
  induction parts with
  | nil => exact ⟨[], rfl⟩
  | cons p rest ih =>
    simp only [execSegs]
    split
    · exact ih
    · obtain ⟨tr, htr⟩ := dispatch_ok o osType hasStartfile _
      obtain ⟨trs, htrs⟩ := ih
      exact ⟨tr ++ trs, by rw [htr, htrs]; rfl⟩

theorem execute_ok (o : Oracle) (osType : List Nat) (hasStartfile : Bool)
    (t : List Nat) : ∃ tr, execute o osType hasStartfile t = Except.ok tr := by
  unfold execute
  split
  · exact ⟨[], rfl⟩
  · exact execSegs_ok o osType hasStartfile _

/-! ### The whitelist loop is first-match search -/

theorem scanSites_eq_find (o : Oracle) (l : List (List Nat × List Nat))
    (target : List Nat) :
    scanSites o l target =
      match l.find? (fun kv => containsSub target kv.1) with
      | some kv => open_browser o kv.2
      | none => Except.ok [] := by
  induction l with
  | nil => rfl
  | cons kv rest ih =>
    obtain ⟨k, u⟩ := kv
    by_cases h : containsSub target k
    · simp [scanSites, List.find?, h]
    · simp [scanSites, List.find?, h, ih]

/-! ### Whitespace-only transcriptions -/

theorem sp_char_facts (c : Nat) (h : isSpN c = true) :
    lowerN c = c ∧ lowerN c ≠ 97 ∧ lowerN c ≠ 116 ∧ isWordN c = false := by
  rw [isSpN, decide_eq_true_eq] at h
  have h1 : ¬(65 ≤ c ∧ c ≤ 90) := by omega
  refine ⟨if_neg h1, ?_, ?_, ?_⟩
  · rw [lowerN, if_neg h1]; omega
  · rw [lowerN, if_neg h1]; omega
  · rw [isWordN, decide_eq_false_iff_not]; omega

theorem isAndAt_sp (prevW : Bool) (c : Nat) (rest : List Nat)
    (h : isSpN c = true) : isAndAt prevW (c :: rest) = false := by
  obtain ⟨-, hne, -, -⟩ := sp_char_facts c h
  unfold isAndAt
  rw [List.take_succ_cons, List.map_cons]
  have hbeq : (lowerN c :: (rest.take 2).map lowerN == ofString "and") =
      false := by
    rw [beq_eq_false_iff_ne]
    intro heq
    rw [show ofString "and" = [97, 110, 100] from rfl] at heq
    injection heq with h1 h2
    exact hne h1
  rw [hbeq]
  simp

theorem isThenAt_sp (prevW : Bool) (c : Nat) (rest : List Nat)
    (h : isSpN c = true) : isThenAt prevW (c :: rest) = false := by
  obtain ⟨-, -, hne, -⟩ := sp_char_facts c h
  unfold isThenAt
  rw [List.take_succ_cons, List.map_cons]
  have hbeq : (lowerN c :: (rest.take 3).map lowerN == ofString "then") =
      false := by
    rw [beq_eq_false_iff_ne]
    intro heq
    rw [show ofString "then" = [116, 104, 101, 110] from rfl] at heq
    injection heq with h1 h2
    exact hne h1
  rw [hbeq]
  simp

theorem splitConnAux_allSp (cs : List Nat) :
    ∀ (prevW : Bool) (acc : List Nat), cs.all isSpN = true →
      splitConnAux 0 prevW acc cs = [acc.reverse ++ cs] := by
  induction cs with
  | nil =>
    intro prevW acc _
    rw [splitConnAux_nil, List.append_nil]
  | cons c rest ih =>
    intro prevW acc hall
    rw [List.all_cons, Bool.and_eq_true] at hall
    obtain ⟨hc, hrest⟩ := hall
    rw [splitConnAux_zero, isAndAt_sp prevW c rest hc,
      if_neg Bool.false_ne_true, isThenAt_sp prevW c rest hc,
      if_neg Bool.false_ne_true, ih (isWordN c) (c :: acc) hrest,
      List.reverse_cons, List.append_assoc, List.singleton_append]

theorem dropWhile_allSp (l : List Nat) (h : l.all isSpN = true) :
    l.dropWhile isSpN = [] := by
  induction l with
  | nil => rfl
  | cons c rest ih =>
    rw [List.all_cons, Bool.and_eq_true] at h
    rw [List.dropWhile_cons, if_pos h.1]
    exact ih h.2

theorem pyStrip_allSp (l : List Nat) (h : l.all isSpN = true) :
    pyStrip l = [] := by
  unfold pyStrip
  rw [dropWhile_allSp l h]
  rfl

theorem segments_allSp (t : List Nat) (h : t.all isSpN = true) :
    segments t = [] := by
  unfold segments
  by_cases ht : t.isEmpty
  · rw [if_pos ht]
  · rw [if_neg ht]
    unfold splitConnectives
    rw [splitConnAux_allSp t false [] h]
    simp [pyStrip_allSp t h]

theorem execute_allSp (o : Oracle) (osType : List Nat) (hasStartfile : Bool)
    (t : List Nat) (h : t.all isSpN = true) :
    execute o osType hasStartfile t = Except.ok [] := by
  unfold execute
  by_cases ht : t.isEmpty
  · rw [if_pos ht]
  · rw [if_neg ht]
    unfold splitConnectives
    rw [splitConnAux_allSp t false [] h]
    simp [execSegs, pyStrip_allSp t h]

/-! ### Without a whole-word connective the splitter never splits -/

/-- A whole-word case-insensitive connective occurrence exists
somewhere in cs, scanning with word-boundary state prevW. -/
def hasConn (prevW : Bool) : List Nat → Bool
  | [] => false
  | c :: rest =>
    isAndAt prevW (c :: rest) || isThenAt prevW (c :: rest) ||
      hasConn (isWordN c) rest

theorem splitConnAux_no_conn (cs : List Nat) :
    ∀ (prevW : Bool) (acc : List Nat), hasConn prevW cs = false →
      splitConnAux 0 prevW acc cs = [acc.reverse ++ cs] := by
  induction cs with
  | nil =>
    intro prevW acc _
    rw [splitConnAux_nil, List.append_nil]
  | cons c rest ih =>
    intro prevW acc h
    simp only [hasConn, Bool.or_eq_false_iff] at h
    obtain ⟨⟨hA, hT⟩, hrest⟩ := h
    rw [splitConnAux_zero, hA, if_neg Bool.false_ne_true, hT,
      if_neg Bool.false_ne_true, ih (isWordN c) (c :: acc) hrest,
      List.reverse_cons, List.append_assoc, List.singleton_append]

/-! ### The Windows settings resolver as first-match rule evaluation -/

/-- Stated from the spec: a SettingsRule list is evaluated
top-to-bottom; the first rule whose keyword set intersects the target
string wins, and a default target is used when none matches. -/
def specFirstRuleMatch (rules : List (List (List Nat) × List Nat))
    (dflt : List Nat) (target : List Nat) : List Nat :=
  match rules with
  | [] => dflt
  | (kws, tid) :: rest =>
    if anyIn kws target then tid else specFirstRuleMatch rest dflt target

/-- Stated from the spec: the Windows SettingsRule list, in source
order. -/
def specWinRules : List (List (List Nat) × List Nat) :=
  [([ofString "sound", ofString "audio", ofString "volume"],
    ofString "ms-settings:sound"),
   ([ofString "display", ofString "screen", ofString "monitor"],
    ofString "ms-settings:display"),
   ([ofString "privacy", ofString "security"],
    ofString "ms-settings:privacy"),
   ([ofString "bluetooth", ofString "device"],
    ofString "ms-settings:bluetooth"),
   ([ofString "wifi", ofString "network", ofString "internet"],
    ofString "ms-settings:network"),
   ([ofString "power", ofString "battery", ofString "sleep"],
    ofString "ms-settings:powersleep")]

theorem winSettingsUri_eq_spec (target : List Nat) :
    winSettingsUri target =
      specFirstRuleMatch specWinRules (ofString "ms-settings:") target := rfl

/-! ### Lowering the transcription does not change the external calls -/

theorem isEmpty_map_lower (t : List Nat) :
    (t.map lowerN).isEmpty = t.isEmpty := by
  cases t <;> rfl

theorem clean_map_lower (p : List Nat) :
    (pyStrip (p.map lowerN)).map lowerN = (pyStrip p).map lowerN := by
  rw [pyStrip_map_lower, mapLower_idem]

theorem execSegs_map_lower (o : Oracle) (osType : List Nat)
    (hasStartfile : Bool) (parts : List (List Nat)) :
    execSegs o osType hasStartfile (parts.map (List.map lowerN)) =
      execSegs o osType hasStartfile parts := by
  induction parts with
  | nil => rfl
  | cons p rest ih =>
    simp only [List.map_cons, execSegs, clean_map_lower, ih]

theorem execute_map_lower (o : Oracle) (osType : List Nat)
    (hasStartfile : Bool) (t : List Nat) :
    execute o osType hasStartfile (t.map lowerN) =
      execute o osType hasStartfile t := by
  unfold execute
  rw [isEmpty_map_lower]
  by_cases ht : t.isEmpty
  · rw [if_pos ht, if_pos ht]
  · rw [if_neg ht, if_neg ht]
    unfold splitConnectives
    rw [show (0 : Nat) = 0 from rfl]
    have hsplit := splitConnAux_map_lower t 0 false []
    rw [List.map_nil] at hsplit
    rw [hsplit, execSegs_map_lower]

/-! ### The claims -/

/-- C1: on the transcription search for cats and open youtube, execute
produces exactly two segments, a search command for cats followed by an
open command for youtube, and the external calls are the Google search
for cats then the YouTube site open; on open youtube then search dogs
the calls are the YouTube site open then the dogs search, in that
left-to-right order with no reordering. -/
theorem claim_C1 (osType : List Nat) (hasStartfile : Bool) :
    segments (ofString "search for cats and open youtube") =
      [ofString "search for cats", ofString "open youtube"] ∧
    execute okOracle osType hasStartfile
        (ofString "search for cats and open youtube") =
      Except.ok
        [ExtCall.browser (ofString "https://www.google.com/search?q=cats"),
         ExtCall.browser (ofString "https://www.youtube.com")] ∧
    segments (ofString "open youtube then search dogs") =
      [ofString "open youtube", ofString "search dogs"] ∧
    execute okOracle osType hasStartfile
        (ofString "open youtube then search dogs") =
      Except.ok
        [ExtCall.browser (ofString "https://www.youtube.com"),
         ExtCall.browser (ofString "https://www.google.com/search?q=dogs")] :=
  ⟨by decide, rfl, by decide, rfl⟩

/-- C2: for an open segment whose target mentions neither setting nor
control panel, the whitelist is scanned in insertion order and the
first entry whose name occurs in the target wins (the scan is exactly
first-match search over the ordered list); in particular open youtube
music opens the YouTube URL because youtube is the first key. -/
theorem claim_C2 (o : Oracle) (osType : List Nat) (hasStartfile : Bool)
    (command : List Nat)
    (h1 : containsSub (pyStrip (stripOpenLead command)) (ofString "setting") =
      false)
    (h2 : containsSub (pyStrip (stripOpenLead command))
      (ofString "control panel") = false) :
    handle_open o osType hasStartfile command =
      (match siteWhitelist.find?
          (fun kv => containsSub (pyStrip (stripOpenLead command)) kv.1) with
       | some kv => open_browser o kv.2
       | none => Except.ok []) ∧
    execute okOracle osType hasStartfile (ofString "open youtube music") =
      Except.ok [ExtCall.browser (ofString "https://www.youtube.com")] := by
  constructor
  · simp only [handle_open]
    rw [h1, h2]
    simp only [Bool.or_self]
    rw [if_neg Bool.false_ne_true]
    exact scanSites_eq_find o siteWhitelist _
  · rfl

theorem claim_C2_witness :
    handle_open okOracle (ofString "windows") true
        (ofString "open youtube music") =
      (match siteWhitelist.find?
          (fun kv => containsSub
            (pyStrip (stripOpenLead (ofString "open youtube music"))) kv.1) with
       | some kv => open_browser okOracle kv.2
       | none => Except.ok []) ∧
    execute okOracle (ofString "windows") true
        (ofString "open youtube music") =
      Except.ok [ExtCall.browser (ofString "https://www.youtube.com")] :=
  claim_C2 okOracle (ofString "windows") true (ofString "open youtube music")
    (by decide) (by decide)

/-- C3 counterexample: in search for "fish and chips" the connective
inside the quoted phrase does trigger a split; execute dispatches two
segments, refuting the claim that a quoted connective never splits. -/
theorem claim_C3_counterexample :
    segments (ofString "search for \"fish and chips\"") =
      [ofString "search for \"fish", ofString "chips\""] := by decide

/-- C3 (amended): the splitter splits exactly on whole-word
occurrences of the connectives, with no regard for quoting: a
connective embedded in another word never splits (open sandy settings
is one segment, and any transcription without a whole-word connective
stays whole), while a quoted whole-word connective does split, as in
search for "fish and chips" which yields two segments. -/
theorem claim_C3 :
    segments (ofString "open sandy settings") =
      [ofString "open sandy settings"] ∧
    (∀ (t acc : List Nat) (prevW : Bool), hasConn prevW t = false →
      splitConnAux 0 prevW acc t = [acc.reverse ++ t]) ∧
    (segments (ofString "search for \"fish and chips\"")).length = 2 := by
  refine ⟨by decide, ?_, by decide⟩
  intro t acc prevW h
  exact splitConnAux_no_conn t prevW acc h

theorem claim_C3_witness :
    splitConnAux 0 false [] (ofString "open sandy settings") =
      [List.reverse [] ++ ofString "open sandy settings"] :=
  claim_C3.2.1 (ofString "open sandy settings") [] false (by decide)

/-- C4: a segment starting with search or find is routed to the search
handler; the browser is invoked exactly when the remainder left after
stripping the leading verb pattern is non-empty, in which case the URL
is the Google search URL with the percent-encoded query, and an empty
remainder produces zero external calls. -/
theorem claim_C4 (osType : List Nat) (hasStartfile : Bool)
    (command : List Nat)
    (h : startsWithL command (ofString "search") = true ∨
      startsWithL command (ofString "find") = true) :
    dispatch okOracle osType hasStartfile command =
      Except.ok
        (if (pyStrip (stripSearchLead command)).isEmpty then []
         else [ExtCall.browser (ofString "https://www.google.com/search?q=" ++
           pyQuote (pyStrip (stripSearchLead command)))]) := by
  have hcond : (startsWithL command (ofString "search") ||
      startsWithL command (ofString "find")) = true := by
    rcases h with h | h <;> simp [h]
  simp only [dispatch, hcond, if_pos]
  simp only [handle_search]
  by_cases hq : (pyStrip (stripSearchLead command)).isEmpty
  · rw [if_pos hq, if_pos hq]
  · rw [if_neg hq, if_neg hq]
    rfl

theorem claim_C4_witness :
    dispatch okOracle (ofString "linux") false (ofString "search for cats") =
      Except.ok
        (if (pyStrip (stripSearchLead (ofString "search for cats"))).isEmpty
          then []
         else [ExtCall.browser (ofString "https://www.google.com/search?q=" ++
           pyQuote (pyStrip (stripSearchLead (ofString "search for cats"))))]) :=
  claim_C4 (ofString "linux") false (ofString "search for cats")
    (Or.inl (by decide))

/-- C5: the Windows settings resolver is exactly top-to-bottom
first-match evaluation of the Windows SettingsRule list with the bare
ms-settings default, and on a Windows host open settings sound is
resolved to the sound settings URI, not the default. -/
theorem claim_C5 :
    (∀ target : List Nat, winSettingsUri target =
      specFirstRuleMatch specWinRules (ofString "ms-settings:") target) ∧
    execute okOracle (ofString "windows") true
        (ofString "open settings sound") =
      Except.ok [ExtCall.startfile (ofString "ms-settings:sound")] ∧
    winSettingsUri (ofString "settings sound") =
      ofString "ms-settings:sound" :=
  ⟨winSettingsUri_eq_spec, rfl, by decide⟩

/-- C6: execute returns normally on every input and under every
behaviour of the external world: any exception an external action
raises is swallowed inside the gateway functions and never reaches the
dispatch loop or the caller; in particular, on Linux with the
control-center binary missing (every external call raising), opening
settings is a silent no-op. -/
theorem claim_C6 :
    (∀ (o : Oracle) (osType : List Nat) (hasStartfile : Bool) (t : List Nat),
      ∃ tr, execute o osType hasStartfile t = Except.ok tr) ∧
    (∀ (e : List Nat) (hasStartfile : Bool),
      execute (fun _ => Except.error e) (ofString "linux") hasStartfile
        (ofString "open settings") = Except.ok []) :=
  ⟨execute_ok, fun _ _ => rfl⟩

/-- C7: the splitter emits the segments in the order of the fragments
they come from, never emits an empty segment, and an empty or
whitespace-only transcription yields no segments and no external
calls. -/
theorem claim_C7 :
    (∀ t s : List Nat, s ∈ segments t → s ≠ []) ∧
    (∀ t : List Nat, List.Sublist (segments t)
      ((splitConnectives t).map (fun p => (pyStrip p).map lowerN))) ∧
    (∀ (o : Oracle) (osType : List Nat) (hasStartfile : Bool) (t : List Nat),
      t.all isSpN = true →
        segments t = [] ∧ execute o osType hasStartfile t = Except.ok []) := by
  refine ⟨?_, ?_, ?_⟩
  · intro t s hs hnil
    unfold segments at hs
    by_cases ht : t.isEmpty
    · rw [if_pos ht] at hs
      cases hs
    · rw [if_neg ht] at hs
      have hp := List.of_mem_filter hs
      rw [hnil] at hp
      cases hp
  · intro t
    unfold segments
    by_cases ht : t.isEmpty
    · rw [if_pos ht]
      exact List.nil_sublist _
    · rw [if_neg ht]
      exact List.filter_sublist _
  · intro o osType hasStartfile t h
    exact ⟨segments_allSp t h, execute_allSp o osType hasStartfile t h⟩

theorem claim_C7_witness :
    ofString "open youtube" ≠ [] ∧
    (segments (ofString " \t ") = [] ∧
      execute okOracle (ofString "windows") true (ofString " \t ") =
        Except.ok []) :=
  ⟨claim_C7.1 (ofString "open youtube") (ofString "open youtube") (by decide),
   claim_C7.2.2 okOracle (ofString "windows") true (ofString " \t ")
     (by decide)⟩

/-- C8: a segment starting with none of the verbs search, find or open
is ignored: dispatch makes no external call on it, and in particular
the transcription frobnicate the whatsit has no observable effect. -/
theorem claim_C8 (o : Oracle) (osType : List Nat) (hasStartfile : Bool)
    (seg : List Nat)
    (h1 : startsWithL seg (ofString "search") = false)
    (h2 : startsWithL seg (ofString "find") = false)
    (h3 : startsWithL seg (ofString "open") = false) :
    dispatch o osType hasStartfile seg = Except.ok [] ∧
    execute o osType hasStartfile (ofString "frobnicate the whatsit") =
      Except.ok [] := by
  constructor
  · unfold dispatch
    rw [h1, h2, h3]
    simp
  · rfl

theorem claim_C8_witness :
    dispatch okOracle (ofString "windows") true
        (ofString "frobnicate the whatsit") = Except.ok [] ∧
    execute okOracle (ofString "windows") true
        (ofString "frobnicate the whatsit") = Except.ok [] :=
  claim_C8 okOracle (ofString "windows") true
    (ofString "frobnicate the whatsit") (by decide) (by decide) (by decide)

/-- C9: the pipeline is case-insensitive: lowering the transcription
does not change the external calls execute makes, for every oracle,
platform and input, and OPEN YouTube behaves exactly like
open youtube. -/
theorem claim_C9 (o : Oracle) (osType : List Nat) (hasStartfile : Bool)
    (t : List Nat) :
    execute o osType hasStartfile (t.map lowerN) =
      execute o osType hasStartfile t ∧
    execute okOracle osType hasStartfile (ofString "OPEN YouTube") =
      execute okOracle osType hasStartfile (ofString "open youtube") :=
  ⟨execute_map_lower o osType hasStartfile t, rfl⟩

/-- C10: because the whitelist holds the single-letter name x and
matching is unanchored substring search, every open target containing
the letter x that mentions no settings keyword and no earlier
whitelist name opens the x.com URL; in particular open xkcd opens
x.com instead of being ignored. -/
theorem claim_C10 (o : Oracle) (osType : List Nat) (hasStartfile : Bool)
    (command : List Nat)
    (hx : containsSub (pyStrip (stripOpenLead command)) (ofString "x") = true)
    (hset : containsSub (pyStrip (stripOpenLead command)) (ofString "setting") =
      false)
    (hcp : containsSub (pyStrip (stripOpenLead command))
      (ofString "control panel") = false)
    (hyt : containsSub (pyStrip (stripOpenLead command)) (ofString "youtube") =
      false)
    (hgm : containsSub (pyStrip (stripOpenLead command)) (ofString "gmail") =
      false)
    (hgo : containsSub (pyStrip (stripOpenLead command)) (ofString "google") =
      false)
    (hrd : containsSub (pyStrip (stripOpenLead command)) (ofString "reddit") =
      false)
    (hgh : containsSub (pyStrip (stripOpenLead command)) (ofString "github") =
      false)
    (ham : containsSub (pyStrip (stripOpenLead command)) (ofString "amazon") =
      false)
    (hnf : containsSub (pyStrip (stripOpenLead command)) (ofString "netflix") =
      false)
    (htw : containsSub (pyStrip (stripOpenLead command)) (ofString "twitter") =
      false) :
    handle_open o osType hasStartfile command =
      open_browser o (ofString "https://x.com") ∧
    execute okOracle osType hasStartfile (ofString "open xkcd") =
      Except.ok [ExtCall.browser (ofString "https://x.com")] := by
  constructor
  · simp only [handle_open]
    rw [hset, hcp]
    simp only [Bool.or_self]
    rw [if_neg Bool.false_ne_true]
    simp only [siteWhitelist, scanSites]
    rw [hyt, hgm, hgo, hrd, hgh, ham, hnf, htw, hx]
    simp
  · rfl

theorem claim_C10_witness :
    handle_open okOracle (ofString "windows") true (ofString "open xkcd") =
      open_browser okOracle (ofString "https://x.com") ∧
    execute okOracle (ofString "windows") true (ofString "open xkcd") =
      Except.ok [ExtCall.browser (ofString "https://x.com")] :=
  claim_C10 okOracle (ofString "windows") true (ofString "open xkcd")
    (by decide) (by decide) (by decide) (by decide) (by decide) (by decide)
    (by decide) (by decide) (by decide) (by decide) (by decide)

end SilentCommander
